import Mathlib

/-!
Shallow embedding of picosnitch (src/picosnitch.py): a host-resident
outbound-connection monitor.  The state mirrors the `snitch` dictionary, the
operations mirror `read`/`write` (persistence), `new_entry`/`update_entry`
(attribution), `poll` (the per-tick reconciliation pass) and the queue drain at
the head of `loop`.  External collaborators (the ipaddress classification of an
address as private, and the psutil process-attribute lookup) are passed in as
function parameters; wall-clock times are the `time.ctime()` strings handed to
`poll`.
-/

namespace Picosnitch

/-- Accumulator pass for `pySplit`: `acc` holds the current token's characters
in reverse. -/
def pySplitAux : List Char → List Char → List String
  | acc, [] => if acc.isEmpty then [] else [String.mk acc.reverse]
  | acc, c :: cs =>
      if c.isWhitespace then
        (if acc.isEmpty then [] else [String.mk acc.reverse]) ++ pySplitAux [] cs
      else
        pySplitAux (c :: acc) cs

/-- Python `str.split()` with no argument: split on whitespace runs, dropping
empty fields. -/
def pySplit (s : String) : List String :=
  pySplitAux [] s.toList

/-- `ctime.split()[:3]` — the weekday/month/day ("calendar date") portion of a
`time.ctime()` string, as compared by `update_entry`. -/
def dateOf (s : String) : List String :=
  (pySplit s).take 3

/-- Helper for Python's substring operator: does the needle occur starting at
the head of the haystack? -/
def headMatch : List Char → List Char → Bool
  | [], _ => true
  | _ :: _, [] => false
  | a :: as, b :: bs => a == b && headMatch as bs

/-- Helper for Python's substring operator on character lists. -/
def subIn : List Char → List Char → Bool
  | n, [] => n.isEmpty
  | n, h :: hs => headMatch n (h :: hs) || subIn n hs

/-- Python's `needle in haystack` on strings: substring containment. -/
def pyIn (needle hay : String) : Bool :=
  subIn needle.toList hay.toList

/-- A Python value standing for a pid: psutil reports an `int` or `None`, and
the initial `proc` dictionary in `poll` holds the string `""`.  Python `==`
across these types is exactly equality of this inductive. -/
inductive PyPid where
  | pint : Nat → PyPid
  | pstr : String → PyPid
  | pnone : PyPid
deriving DecidableEq, Repr

/-- Python `str()` of a pid value. -/
def pyStrPid : PyPid → String
  | PyPid.pint n => toString n
  | PyPid.pstr s => s
  | PyPid.pnone => "None"

/-- The `proc` dictionary produced by
`psutil.Process(pid).as_dict(attrs=["name", "exe", "cmdline", "pid"])`.
`cmdline` holds the `str()` rendering that `new_entry`/`update_entry` store. -/
structure Proc where
  name : String
  exe : String
  cmdline : String
  pid : PyPid
deriving DecidableEq, Repr

/-- The initial `proc = {"name": "", "exe": "", "cmdline": "", "pid": ""}` set
at the top of `poll`. -/
def initProc : Proc :=
  { name := "", exe := "", cmdline := "", pid := PyPid.pstr "" }

/-- A psutil address endpoint `addr(ip=..., port=...)`. -/
structure Addr where
  ip : String
  port : Nat
deriving DecidableEq, Repr

/-- One row of the OS connection table as psutil exposes it.  `raddr` is
`none` when the connection has no remote endpoint (Python's falsy `()`). -/
structure Conn where
  laddr : Addr
  raddr : Option Addr
  pid : PyPid
deriving DecidableEq, Repr

/-- Python `str(conn)` — the raw connection description used in diagnostics. -/
def connStr (c : Conn) : String :=
  "sconn(laddr=addr(ip=" ++ c.laddr.ip ++ ", port=" ++ toString c.laddr.port ++
    "), raddr=" ++
    (match c.raddr with
      | some a => "addr(ip=" ++ a.ip ++ ", port=" ++ toString a.port ++ ")"
      | none => "()") ++
    ", pid=" ++ pyStrPid c.pid ++ ")"

/-- A candidate record emitted by the capture path (`parse_packet`). -/
structure Packet where
  direction : String
  laddr_ip : String
  laddr_port : Nat
  raddr_ip : String
deriving DecidableEq, Repr

/-- A Python dict as an insertion-ordered association list. -/
abbrev Dict (κ : Type) (α : Type) := List (κ × α)

/-- Python dict assignment `d[k] = v`: overwrite in place if the key is
present, else append at the end. -/
def dictInsert {κ α : Type} [DecidableEq κ] : Dict κ α → κ → α → Dict κ α
  | [], k, v => [(k, v)]
  | p :: ps, k, v => if p.1 = k then (k, v) :: ps else p :: dictInsert ps k v

/-- Python `d.pop(k, None)` restricted to its effect on the dict: the entry
under `k` is removed (dict keys are unique, so removing every pair keyed `k`
is the same removal). -/
def dictPop {κ α : Type} [DecidableEq κ] (d : Dict κ α) (k : κ) : Dict κ α :=
  d.filter (fun p => p.1 ≠ k)

/-- The candidate map fed from the capture queue, keyed by local port. -/
abbrev PcapDict := Dict Nat Packet

/-- One Process Entry: the per-executable historical record stored under
`snitch["Processes"]`. -/
structure Entry where
  name : String
  cmdlines : List String
  firstSeen : String
  lastSeen : String
  daysSeen : Nat
  remoteAddresses : List String
deriving DecidableEq, Repr

/-- `snitch["Config"]`.  The two intervals are Python floats, which are exact
rationals. -/
structure Config where
  pollingInterval : Rat
  writeInterval : Rat
  usePcap : Bool
deriving DecidableEq, Repr

/-- The root `snitch` dictionary. -/
structure SnitchState where
  config : Config
  errors : List String
  executables : List String
  names : List String
  processes : Dict String Entry
deriving DecidableEq, Repr

/-- The fresh default state synthesized by `read` when no file exists. -/
def defaultSnitch : SnitchState :=
  { config := { pollingInterval := mkRat 1 5, writeInterval := mkRat 600 1, usePcap := false }
    errors := []
    executables := []
    names := []
    processes := [] }

/-- `new_entry(snitch, proc, raddr_ip, ctime)`: append to the audit trails
(suffixing the name when it now occurs more than once in `Names`), and insert
a fresh Process Entry. -/
def new_entry (snitch : SnitchState) (proc : Proc) (raddr_ip ctime : String) : SnitchState :=
  let executables := snitch.executables ++ [proc.exe]
  let names0 := snitch.names ++ [proc.name]
  let names :=
    if 1 < names0.count proc.name then
      names0.dropLast ++ [proc.name ++ " (different executable location)"]
    else
      names0
  let entry : Entry :=
    { name := proc.name
      cmdlines := [proc.cmdline]
      firstSeen := ctime
      lastSeen := ctime
      daysSeen := 1
      remoteAddresses := [raddr_ip] }
  { snitch with
      executables := executables
      names := names
      processes := dictInsert snitch.processes proc.exe entry }

/-- The mutation `update_entry` performs on the looked-up entry. -/
def update_entry_e (entry : Entry) (proc : Proc) (raddr_ip ctime : String) : Entry :=
  let name :=
    if pyIn proc.name entry.name then entry.name
    else entry.name ++ " alternative=" ++ proc.name
  let cmdlines :=
    if proc.cmdline ∈ entry.cmdlines then entry.cmdlines
    else entry.cmdlines ++ [proc.cmdline]
  let remoteAddresses :=
    if raddr_ip ∈ entry.remoteAddresses then entry.remoteAddresses
    else entry.remoteAddresses ++ [raddr_ip]
  let daysSeen :=
    if dateOf ctime = dateOf entry.lastSeen then entry.daysSeen
    else entry.daysSeen + 1
  { name := name
    cmdlines := cmdlines
    firstSeen := entry.firstSeen
    lastSeen := ctime
    daysSeen := daysSeen
    remoteAddresses := remoteAddresses }

/-- `update_entry(snitch, proc, raddr_ip, ctime)`: mutate the entry stored
under `proc["exe"]` in place.  `poll` only dispatches here when the key is
present, so the `none` branch is never reached from `poll`. -/
def update_entry (snitch : SnitchState) (proc : Proc) (raddr_ip ctime : String) : SnitchState :=
  match snitch.processes.lookup proc.exe with
  | some e =>
      { snitch with
          processes := dictInsert snitch.processes proc.exe (update_entry_e e proc raddr_ip ctime) }
  | none => snitch

/-- The loop-carried state of `poll`'s `for conn in ...` loop: the snitch
dictionary, the reconciliation candidate map, and the last successfully
resolved `proc` dictionary (read by the error path). -/
structure PollState where
  snitch : SnitchState
  pcap : PcapDict
  proc : Proc
deriving DecidableEq, Repr

/-- The body of `poll`'s loop for one new connection.  `isPrivate` models
`ipaddress.ip_address(...).is_private`; `resolve` models
`psutil.Process(pid).as_dict(...)`, returning `none` when the lookup raises
(process already exited, permission denied, ...). -/
def processConn (isPrivate : String → Bool) (resolve : PyPid → Option Proc)
    (ctime : String) (st : PollState) (conn : Conn) : PollState :=
  match conn.raddr with
  | some a =>
      if isPrivate a.ip then st
      else
        let pcap := dictPop st.pcap conn.laddr.port
        match resolve conn.pid with
        | some p =>
            let snitch :=
              if (st.snitch.processes.lookup p.exe).isSome then
                update_entry st.snitch p a.ip ctime
              else
                new_entry st.snitch p a.ip ctime
            { snitch := snitch, pcap := pcap, proc := p }
        | none =>
            let error := connStr conn ++
              (if conn.pid = st.proc.pid then pyStrPid st.proc.pid
               else "\x7bprocess no longer exists\x7d")
            { snitch := { st.snitch with errors := st.snitch.errors ++ [ctime ++ " " ++ error] }
              pcap := pcap
              proc := st.proc }
  | none => st

/-- `poll(snitch, last_connections, pcap_dict)`: process each connection new
since the previous snapshot, then record one missed-connection diagnostic for
each candidate still left in the candidate map (the `for conn in pcap_dict`
loop ranges over the dict's keys, i.e. local ports), and return the current
snapshot.  The current connection table is an input here (the source obtains
it from `psutil.net_connections`). -/
def poll (isPrivate : String → Bool) (resolve : PyPid → Option Proc)
    (ctime : String) (snitch : SnitchState) (last_connections : List Conn)
    (current_connections : List Conn) (pcap_dict : PcapDict) :
    SnitchState × List Conn :=
  let newConns := current_connections.filter (fun c => !(last_connections.contains c))
  let st := newConns.foldl (processConn isPrivate resolve ctime)
    { snitch := snitch, pcap := pcap_dict, proc := initProc }
  ({ st.snitch with
      errors := st.snitch.errors ++ st.pcap.map (fun p => ctime ++ " " ++ toString p.1) },
   current_connections)

/-- The per-tick inputs the environment feeds one iteration of `loop`: the
`time.ctime()` string, the current connection table, and the candidate map
built from the capture queue. -/
structure TickInput where
  ctime : String
  current : List Conn
  pcap : PcapDict

/-- The sequence of `poll` calls `loop` performs, threading the snitch state
and the previous snapshot (initially the empty set). -/
def runTicks (isPrivate : String → Bool) (resolve : PyPid → Option Proc)
    (ticks : List TickInput) (init : SnitchState × List Conn) :
    SnitchState × List Conn :=
  ticks.foldl
    (fun st t => poll isPrivate resolve t.ctime st.1 st.2 t.current t.pcap)
    init

/-- Does `processConn` remove the candidate stored under `port` when handling
`c`?  It does exactly when `c` has a public remote address (the
`pcap_dict.pop` at line 77 precedes process resolution, so it happens whether
or not resolution then fails). -/
def popsPort (isPrivate : String → Bool) (c : Conn) (port : Nat) : Bool :=
  match c.raddr with
  | some a => !isPrivate a.ip && c.laddr.port = port
  | none => false

/-- The executable path a connection gets attributed to, when it does: the
remote address exists and is public, and process resolution succeeds. -/
def attrOf (isPrivate : String → Bool) (resolve : PyPid → Option Proc)
    (c : Conn) : Option String :=
  match c.raddr with
  | some a => if isPrivate a.ip then none else (resolve c.pid).map Proc.exe
  | none => none

/-- All executable paths attributed over a run of ticks, in order: per tick,
the attributions of the connections new against the carried snapshot. -/
def attributedExes (isPrivate : String → Bool) (resolve : PyPid → Option Proc) :
    List TickInput → List Conn → List String
  | [], _ => []
  | t :: ts, last =>
      (t.current.filter (fun c => !(last.contains c))).filterMap
        (attrOf isPrivate resolve) ++
      attributedExes isPrivate resolve ts t.current

/-- Lines 137–143 of the source: with capture enabled, each tick starts by
rebuilding the candidate map from scratch (`pcap_dict = { }`) and draining the
queue.  The drain body evaluates `q.get()`, but no binding named `q` is in
scope inside `loop` (the queue variable is named `queue`), so the first
iteration on a non-empty queue raises `NameError`; modelled as `Except.error`.
The previous tick's map (`prev`) is discarded unconditionally. -/
def drainQueue (prev : PcapDict) (queue : List Packet) (known_ports : List Nat) :
    Except String PcapDict :=
  match queue with
  | [] => Except.ok []
  | _ :: _ => Except.error "NameError: name q is not defined"

/-- Modelled from the spec: the intended queue drain — "the Poller drains the
queue into a fresh candidate map keyed by local port, skipping any candidate
whose local port matches a connection already known from the current live
connection snapshot".  This is what the source's drain loop reads as once
`q.get()` is read as `queue.get()`. -/
def drainQueueSpec (queue : List Packet) (known_ports : List Nat) : PcapDict :=
  queue.foldl
    (fun d pkt =>
      if pkt.laddr_port ∈ known_ports then d else dictInsert d pkt.laddr_port pkt)
    []

/-- The JSON documents `json.dump`/`json.load` exchange with the state file.
Python serializes ints and floats distinctly; both are exact rationals. -/
inductive Json where
  | jnull : Json
  | jbool : Bool → Json
  | jint : Int → Json
  | jnum : Rat → Json
  | jstr : String → Json
  | jarr : List Json → Json
  | jobj : List (String × Json) → Json

/-- Insert one item into a key-sorted dict item list. -/
def insertByKey {α : Type} (p : String × α) : Dict String α → Dict String α
  | [] => [p]
  | q :: qs => if p.1 ≤ q.1 then p :: q :: qs else q :: insertByKey p qs

/-- `sort_keys=True`: dict items emitted in ascending key order (keys are
unique in a dict, so stability is immaterial). -/
def sortByKey {α : Type} : Dict String α → Dict String α
  | [] => []
  | p :: ps => insertByKey p (sortByKey ps)

/-- The `Config` dict as serialized (keys sorted). -/
def encodeConfig (c : Config) : Json :=
  Json.jobj
    [("Polling interval", Json.jnum c.pollingInterval),
     ("Use pcap", Json.jbool c.usePcap),
     ("Write interval", Json.jnum c.writeInterval)]

/-- A Process Entry as serialized (keys sorted). -/
def encodeEntry (e : Entry) : Json :=
  Json.jobj
    [("cmdlines", Json.jarr (e.cmdlines.map Json.jstr)),
     ("days seen", Json.jint (Int.ofNat e.daysSeen)),
     ("first seen", Json.jstr e.firstSeen),
     ("last seen", Json.jstr e.lastSeen),
     ("name", Json.jstr e.name),
     ("remote addresses", Json.jarr (e.remoteAddresses.map Json.jstr))]

/-- `write(snitch)`: the document `json.dump(snitch, ..., sort_keys=True)`
emits — every dict, including `Processes`, with keys in sorted order.  The
top-level and per-entry key lists are already alphabetical. -/
def write (s : SnitchState) : Json :=
  Json.jobj
    [("Config", encodeConfig s.config),
     ("Errors", Json.jarr (s.errors.map Json.jstr)),
     ("Executables", Json.jarr (s.executables.map Json.jstr)),
     ("Names", Json.jarr (s.names.map Json.jstr)),
     ("Processes", Json.jobj ((sortByKey s.processes).map (fun p => (p.1, encodeEntry p.2))))]

/-- Deserialize a list of JSON strings. -/
def decodeStrs : List Json → Option (List String)
  | [] => some []
  | Json.jstr s :: js => (decodeStrs js).map (fun l => s :: l)
  | _ => none

/-- Deserialize a JSON array of strings. -/
def decodeStrList : Json → Option (List String)
  | Json.jarr l => decodeStrs l
  | _ => none

/-- Deserialize a `Config` dict. -/
def decodeConfig : Json → Option Config
  | Json.jobj [("Polling interval", Json.jnum p), ("Use pcap", Json.jbool u),
               ("Write interval", Json.jnum w)] =>
      some { pollingInterval := p, writeInterval := w, usePcap := u }
  | _ => none

/-- Deserialize a Process Entry. -/
def decodeEntry : Json → Option Entry
  | Json.jobj [("cmdlines", c), ("days seen", Json.jint (Int.ofNat d)),
               ("first seen", Json.jstr f), ("last seen", Json.jstr l),
               ("name", Json.jstr n), ("remote addresses", r)] => do
      let cl ← decodeStrList c
      let rl ← decodeStrList r
      some { name := n, cmdlines := cl, firstSeen := f, lastSeen := l,
             daysSeen := d, remoteAddresses := rl }
  | _ => none

/-- Deserialize the `Processes` dict, key order as read. -/
def decodeProcDict : List (String × Json) → Option (Dict String Entry)
  | [] => some []
  | (k, j) :: rest => do
      let e ← decodeEntry j
      let r ← decodeProcDict rest
      some ((k, e) :: r)

/-- `read()` applied to an existing file's document: parse it back into a
state.  The source's `assert` demands exactly the keys
Config/Errors/Executables/Names/Processes; a document of any other shape is
rejected. -/
def read (j : Json) : Option SnitchState :=
  match j with
  | Json.jobj [("Config", c), ("Errors", e), ("Executables", x),
               ("Names", n), ("Processes", Json.jobj p)] => do
      let cfg ← decodeConfig c
      let errs ← decodeStrList e
      let exes ← decodeStrList x
      let nms ← decodeStrList n
      let procs ← decodeProcDict p
      some { config := cfg, errors := errs, executables := exes,
             names := nms, processes := procs }
  | _ => none

/-- Python `==` on two snitch states: field-wise equality, with the
`Processes` dicts compared as dicts (same keys, same values, order
irrelevant).  For dicts — whose keys are unique — this is permutation of the
item lists. -/
def pyEqState (a b : SnitchState) : Prop :=
  a.config = b.config ∧ a.errors = b.errors ∧ a.executables = b.executables ∧
  a.names = b.names ∧ a.processes.Perm b.processes

instance (a b : SnitchState) : Decidable (pyEqState a b) := by
  unfold pyEqState; infer_instance

/-! ### Concrete material used by the end-to-end scenario and the witnesses -/

/-- A concrete private-address classifier: loopback plus the 10/8 block. -/
def privW (ip : String) : Bool :=
  pyIn "127." ip || pyIn "10." ip

/-- The `curl` process of the end-to-end scenario. -/
def curlProc : Proc :=
  { name := "curl", exe := "/usr/bin/curl", cmdline := "c", pid := PyPid.pint 100 }

/-- A concrete resolver: pid 100 is the curl process, everything else fails. -/
def resolveW : PyPid → Option Proc
  | PyPid.pint 100 => some curlProc
  | _ => none

/-- First scenario timestamp, in `time.ctime()` format. -/
def t1 : String := "Mon Jan  1 00:00:00 2024"

/-- Second scenario timestamp. -/
def t2 : String := "Tue Jan  2 00:00:00 2024"

/-- The scenario's first connection, to 93.184.216.34. -/
def conn1 : Conn :=
  { laddr := { ip := "192.168.0.2", port := 40001 },
    raddr := some { ip := "93.184.216.34", port := 443 },
    pid := PyPid.pint 100 }

/-- The scenario's second connection, to 8.8.8.8. -/
def conn2 : Conn :=
  { laddr := { ip := "192.168.0.2", port := 40002 },
    raddr := some { ip := "8.8.8.8", port := 53 },
    pid := PyPid.pint 100 }

/-- The entry the scenario's first connection must create. -/
def entry1 : Entry :=
  { name := "curl", cmdlines := ["c"], firstSeen := t1, lastSeen := t1,
    daysSeen := 1, remoteAddresses := ["93.184.216.34"] }

/-- The entry after the scenario's second connection. -/
def entry2 : Entry :=
  { name := "curl", cmdlines := ["c"], firstSeen := t1, lastSeen := t2,
    daysSeen := 2, remoteAddresses := ["93.184.216.34", "8.8.8.8"] }

/-- A connection with no remote endpoint (e.g. a listening socket). -/
def connNoR : Conn :=
  { laddr := { ip := "0.0.0.0", port := 22 }, raddr := none, pid := PyPid.pnone }

/-- A connection whose owning process exits before resolution: `resolveW`
fails on pid 999. -/
def connFail : Conn :=
  { laddr := { ip := "192.168.0.2", port := 40099 },
    raddr := some { ip := "5.6.7.8", port := 443 },
    pid := PyPid.pint 999 }

/-- A capture candidate used in concrete drain statements. -/
def pkt1 : Packet :=
  { direction := "outgoing", laddr_ip := "192.168.0.2", laddr_port := 40050,
    raddr_ip := "1.2.3.4" }

/-- A state with two entries whose keys are not in sorted order, exercising
the `sort_keys=True` serialization. -/
def sampleW : SnitchState :=
  { config := { pollingInterval := mkRat 1 5, writeInterval := mkRat 600 1, usePcap := true }
    errors := ["e1"]
    executables := ["/usr/bin/curl", "/opt/curl"]
    names := ["curl", "curl (different executable location)"]
    processes := [("/usr/bin/curl", entry1), ("/opt/curl", entry2)] }

/-- A second executable that also reports under the display name `curl`. -/
def curl2Proc : Proc :=
  { name := "curl", exe := "/opt/curl", cmdline := "c2", pid := PyPid.pint 101 }

/-- A state holding one entry for `/usr/bin/curl`, used by witnesses. -/
def sW : SnitchState :=
  { defaultSnitch with
      executables := ["/usr/bin/curl"]
      names := ["curl"]
      processes := [("/usr/bin/curl", entry1)] }

/-- The state after the end-to-end scenario's second connection. -/
def sW2 : SnitchState :=
  { defaultSnitch with
      executables := ["/usr/bin/curl"]
      names := ["curl"]
      processes := [("/usr/bin/curl", entry2)] }

/-! ### Helper lemmas: substrings -/

theorem headMatch_append_self (n b : List Char) : headMatch n (n ++ b) = true := by
  induction n with
  | nil => rfl
  | cons c cs ih => simp [headMatch, ih]

theorem subIn_sandwich (a n b : List Char) : subIn n (a ++ (n ++ b)) = true := by
  induction a with
  | nil =>
      cases n with
      | nil =>
          cases b with
          | nil => rfl
          | cons x bs => simp [subIn, headMatch]
      | cons c cs =>
          have h := headMatch_append_self (c :: cs) b
          simp only [List.cons_append] at h
          simp [subIn, h]
  | cons x as ih => simp [subIn, ih]

theorem toList_append (a b : String) : (a ++ b).toList = a.toList ++ b.toList := by
  simp [String.toList, String.data_append]

theorem pyIn_sandwich (a n b : String) : pyIn n (a ++ (n ++ b)) = true := by
  unfold pyIn
  rw [toList_append, toList_append]
  exact subIn_sandwich a.toList n.toList b.toList

theorem pyIn_append_right (a n : String) : pyIn n (a ++ n) = true := by
  unfold pyIn
  rw [toList_append]
  have h := subIn_sandwich a.toList n.toList []
  simpa using h

/-! ### Helper lemmas: dicts -/

theorem lookup_dictInsert {κ α : Type} [DecidableEq κ] (d : Dict κ α) (k : κ) (v : α) :
    (dictInsert d k v).lookup k = some v := by
  induction d with
  | nil => simp [dictInsert, List.lookup]
  | cons p ps ih =>
      by_cases h : p.1 = k
      · simp [dictInsert, h, List.lookup]
      · simp only [dictInsert, if_neg h, List.lookup]
        have hbeq : (k == p.1) = false := by
          simp [beq_eq_false_iff_ne]
          exact fun he => h he.symm
        rw [hbeq]
        exact ih

theorem dictInsert_dictInsert {κ α : Type} [DecidableEq κ] (d : Dict κ α) (k : κ) (v w : α) :
    dictInsert (dictInsert d k v) k w = dictInsert d k w := by
  induction d with
  | nil => simp [dictInsert]
  | cons p ps ih =>
      by_cases h : p.1 = k
      · simp [dictInsert, h]
      · simp [dictInsert, if_neg h, ih]

theorem mem_keys_dictInsert {κ α : Type} [DecidableEq κ] (d : Dict κ α) (k : κ) (v : α)
    (x : κ) : x ∈ (dictInsert d k v).map Prod.fst ↔ x = k ∨ x ∈ d.map Prod.fst := by
  induction d with
  | nil => simp [dictInsert]
  | cons p ps ih =>
      by_cases h : p.1 = k
      · simp only [dictInsert, if_pos h, List.map_cons, List.mem_cons]
        rw [h]
        tauto
      · simp only [dictInsert, if_neg h, List.map_cons, List.mem_cons, ih]
        tauto

theorem mem_dictInsert {κ α : Type} [DecidableEq κ] (d : Dict κ α) (k : κ) (v : α)
    (p : κ × α) (hp : p ∈ dictInsert d k v) : p = (k, v) ∨ p ∈ d := by
  induction d with
  | nil => simpa [dictInsert] using hp
  | cons q qs ih =>
      by_cases h : q.1 = k
      · simp only [dictInsert, if_pos h, List.mem_cons] at hp
        rcases hp with hp | hp
        · exact Or.inl hp
        · exact Or.inr (List.mem_cons_of_mem q hp)
      · simp only [dictInsert, if_neg h, List.mem_cons] at hp
        rcases hp with hp | hp
        · exact Or.inr (by simp [hp])
        · rcases ih hp with hh | hh
          · exact Or.inl hh
          · exact Or.inr (List.mem_cons_of_mem q hh)

theorem lookup_mem {κ α : Type} [DecidableEq κ] (d : Dict κ α) (k : κ) (v : α)
    (h : d.lookup k = some v) : (k, v) ∈ d := by
  induction d with
  | nil => simp [List.lookup] at h
  | cons p ps ih =>
      rw [show p = (p.1, p.2) from rfl, List.lookup] at h
      rcases hbeq : (k == p.1) with _ | _
      · rw [hbeq] at h
        exact List.mem_cons_of_mem _ (ih h)
      · rw [hbeq] at h
        have hk : k = p.1 := by simpa [beq_iff_eq] using hbeq
        have hv : p.2 = v := by simpa using h
        simp [hk, ← hv]

/-! ### Helper lemmas: `new_entry` and `update_entry` -/

theorem new_entry_names (s : SnitchState) (p : Proc) (ip t : String) :
    (new_entry s p ip t).names =
      if 1 < (s.names ++ [p.name]).count p.name then
        s.names ++ [p.name ++ " (different executable location)"]
      else
        s.names ++ [p.name] := by
  by_cases h : 1 < (s.names ++ [p.name]).count p.name <;>
    simp [new_entry, h, List.dropLast_concat]

theorem new_entry_processes (s : SnitchState) (p : Proc) (ip t : String) :
    (new_entry s p ip t).processes =
      dictInsert s.processes p.exe
        { name := p.name, cmdlines := [p.cmdline], firstSeen := t, lastSeen := t,
          daysSeen := 1, remoteAddresses := [ip] } := rfl

theorem update_entry_eq (s : SnitchState) (p : Proc) (ip t : String) (e : Entry)
    (he : s.processes.lookup p.exe = some e) :
    update_entry s p ip t =
      { s with processes := dictInsert s.processes p.exe (update_entry_e e p ip t) } := by
  unfold update_entry
  rw [he]

theorem update_entry_e_stable (e : Entry) (p : Proc) (ip t : String)
    (h1 : pyIn p.name e.name = true) (h2 : p.cmdline ∈ e.cmdlines)
    (h3 : ip ∈ e.remoteAddresses) (h4 : e.lastSeen = t) :
    update_entry_e e p ip t = e := by
  unfold update_entry_e
  rw [h4]
  simp [h1, h2, h3]
  rw [← h4]

theorem update_entry_e_idem (e : Entry) (p : Proc) (ip t : String) :
    update_entry_e (update_entry_e e p ip t) p ip t = update_entry_e e p ip t := by
  apply update_entry_e_stable
  · cases hh : pyIn p.name e.name with
    | false => simp [update_entry_e, hh, pyIn_append_right]
    | true => simp [update_entry_e, hh]
  · by_cases h : p.cmdline ∈ e.cmdlines <;> simp [update_entry_e, h]
  · by_cases h : ip ∈ e.remoteAddresses <;> simp [update_entry_e, h]
  · rfl

/-! ### Helper lemmas: the branches of `poll`'s per-connection body -/

theorem processConn_noraddr (i : String → Bool) (r : PyPid → Option Proc) (t : String)
    (st : PollState) (c : Conn) (hra : c.raddr = none) :
    processConn i r t st c = st := by
  unfold processConn
  rw [hra]

theorem processConn_private (i : String → Bool) (r : PyPid → Option Proc) (t : String)
    (st : PollState) (c : Conn) (a : Addr) (hra : c.raddr = some a)
    (hpriv : i a.ip = true) :
    processConn i r t st c = st := by
  unfold processConn
  rw [hra]
  simp [hpriv]

theorem processConn_fail (i : String → Bool) (r : PyPid → Option Proc) (t : String)
    (st : PollState) (c : Conn) (a : Addr) (hra : c.raddr = some a)
    (hpriv : i a.ip = false) (hres : r c.pid = none) :
    processConn i r t st c =
      { snitch := { st.snitch with errors := st.snitch.errors ++
            [t ++ " " ++ (connStr c ++
              (if c.pid = st.proc.pid then pyStrPid st.proc.pid
               else "\x7bprocess no longer exists\x7d"))] }
        pcap := dictPop st.pcap c.laddr.port
        proc := st.proc } := by
  unfold processConn
  rw [hra]
  simp [hpriv, hres]

theorem processConn_new (i : String → Bool) (r : PyPid → Option Proc) (t : String)
    (st : PollState) (c : Conn) (a : Addr) (p : Proc)
    (hra : c.raddr = some a) (hpriv : i a.ip = false) (hres : r c.pid = some p)
    (habs : st.snitch.processes.lookup p.exe = none) :
    processConn i r t st c =
      { snitch := new_entry st.snitch p a.ip t,
        pcap := dictPop st.pcap c.laddr.port, proc := p } := by
  unfold processConn
  rw [hra]
  simp [hpriv, hres, habs]

theorem processConn_update (i : String → Bool) (r : PyPid → Option Proc) (t : String)
    (st : PollState) (c : Conn) (a : Addr) (p : Proc) (e : Entry)
    (hra : c.raddr = some a) (hpriv : i a.ip = false) (hres : r c.pid = some p)
    (hpres : st.snitch.processes.lookup p.exe = some e) :
    processConn i r t st c =
      { snitch := update_entry st.snitch p a.ip t,
        pcap := dictPop st.pcap c.laddr.port, proc := p } := by
  unfold processConn
  rw [hra]
  simp [hpriv, hres, hpres]

/-! ### Claim theorems: attribution-engine claims -/

/-- Claim C1: starting from the fresh default state, one connection from
`/usr/bin/curl` (name `curl`, command line `c`) to the public address
93.184.216.34 at `Mon Jan  1 00:00:00 2024` creates
`Processes["/usr/bin/curl"]` with `firstSeen = lastSeen =` that time,
`daysSeen = 1`, `cmdlines = ["c"]`, `remoteAddresses = ["93.184.216.34"]`
(that is `entry1`); a second connection from the same executable to 8.8.8.8
at `Tue Jan  2 00:00:00 2024` leaves the same single entry with
`daysSeen = 2`, `remoteAddresses = ["93.184.216.34", "8.8.8.8"]`, `lastSeen`
the second time, and `firstSeen` unchanged (that is `entry2`). -/
theorem c1_end_to_end (isPrivate : String → Bool) (resolve : PyPid → Option Proc)
    (h1 : isPrivate "93.184.216.34" = false) (h2 : isPrivate "8.8.8.8" = false)
    (h3 : resolve (PyPid.pint 100) = some curlProc) :
    (poll isPrivate resolve t1 defaultSnitch [] [conn1] []).1.processes
        = [("/usr/bin/curl", entry1)]
    ∧ (poll isPrivate resolve t2 (poll isPrivate resolve t1 defaultSnitch [] [conn1] []).1
        [conn1] [conn2] []).1.processes = [("/usr/bin/curl", entry2)] := by
  have hstep1 : processConn isPrivate resolve t1
      { snitch := defaultSnitch, pcap := [], proc := initProc } conn1
      = { snitch := new_entry defaultSnitch curlProc "93.184.216.34" t1,
          pcap := [], proc := curlProc } := by
    rw [processConn_new isPrivate resolve t1 _ conn1 { ip := "93.184.216.34", port := 443 }
      curlProc rfl h1 h3 (by decide)]
    rfl
  have hpoll1 : poll isPrivate resolve t1 defaultSnitch [] [conn1] [] = (sW, [conn1]) := by
    have hf : ([conn1].filter (fun c => !(([] : List Conn).contains c))) = [conn1] := by decide
    simp only [poll]
    rw [hf, List.foldl_cons, List.foldl_nil, hstep1]
    rfl
  have hstep2 : processConn isPrivate resolve t2
      { snitch := sW, pcap := [], proc := initProc } conn2
      = { snitch := update_entry sW curlProc "8.8.8.8" t2,
          pcap := [], proc := curlProc } := by
    rw [processConn_update isPrivate resolve t2 _ conn2 { ip := "8.8.8.8", port := 53 }
      curlProc entry1 rfl h2 h3 (by decide)]
    rfl
  have hpoll2 : poll isPrivate resolve t2 sW [conn1] [conn2] [] = (sW2, [conn2]) := by
    have hf : ([conn2].filter (fun c => !(([conn1] : List Conn).contains c))) = [conn2] := by
      decide
    simp only [poll]
    rw [hf, List.foldl_cons, List.foldl_nil, hstep2]
    rfl
  rw [hpoll1, hpoll2]
  exact ⟨rfl, rfl⟩

/-- Witness for C1 with a concrete address classifier and resolver. -/
theorem c1_end_to_end_witness :
    privW "93.184.216.34" = false ∧ privW "8.8.8.8" = false
    ∧ resolveW (PyPid.pint 100) = some curlProc
    ∧ ((poll privW resolveW t1 defaultSnitch [] [conn1] []).1.processes
          = [("/usr/bin/curl", entry1)]
       ∧ (poll privW resolveW t2 (poll privW resolveW t1 defaultSnitch [] [conn1] []).1
            [conn1] [conn2] []).1.processes = [("/usr/bin/curl", entry2)]) :=
  ⟨by decide, by decide, rfl, c1_end_to_end privW resolveW (by decide) (by decide) rfl⟩

/-- Claim C3: for every state holding an entry for `proc`'s executable,
applying `update_entry` twice with identical `(proc, remoteIp, ctime)` inputs
changes nothing on the second application: the state is unchanged, the entry
after the first application is the update of the stored entry, and its
`lastSeen` equals the supplied `ctime` (so the rewrite of `lastSeen` on the
second application writes the same value). -/
theorem c3_update_idempotent (s : SnitchState) (p : Proc) (ip t : String) (e : Entry)
    (he : s.processes.lookup p.exe = some e) :
    update_entry (update_entry s p ip t) p ip t = update_entry s p ip t
    ∧ (update_entry s p ip t).processes.lookup p.exe = some (update_entry_e e p ip t)
    ∧ (update_entry_e e p ip t).lastSeen = t := by
  have h1 := update_entry_eq s p ip t e he
  have h2 : (update_entry s p ip t).processes.lookup p.exe
      = some (update_entry_e e p ip t) := by
    rw [h1]
    exact lookup_dictInsert s.processes p.exe (update_entry_e e p ip t)
  refine ⟨?_, h2, rfl⟩
  have h3 := update_entry_eq (update_entry s p ip t) p ip t (update_entry_e e p ip t) h2
  rw [h3, update_entry_e_idem]
  have h4 : (update_entry s p ip t).processes
      = dictInsert s.processes p.exe (update_entry_e e p ip t) := by
    rw [h1]
  rw [h4, dictInsert_dictInsert, ← h4]

/-- Witness for C3 at a concrete state, process and time. -/
theorem c3_update_idempotent_witness :
    sW.processes.lookup curlProc.exe = some entry1
    ∧ (update_entry (update_entry sW curlProc "8.8.8.8" t2) curlProc "8.8.8.8" t2
          = update_entry sW curlProc "8.8.8.8" t2
       ∧ (update_entry sW curlProc "8.8.8.8" t2).processes.lookup curlProc.exe
          = some (update_entry_e entry1 curlProc "8.8.8.8" t2)
       ∧ (update_entry_e entry1 curlProc "8.8.8.8" t2).lastSeen = t2) :=
  ⟨by decide, c3_update_idempotent sW curlProc "8.8.8.8" t2 entry1 (by decide)⟩

/-- Claim C5: two creations with distinct executable paths that both report
the same process name `X`, with `X` not previously in `Names`: the `Names`
slot appended by the first creation is `X` and the slot appended by the
second is `X` followed by " (different executable location)". -/
theorem c5_name_collision (s : SnitchState) (p₁ p₂ : Proc) (ip₁ ip₂ u₁ u₂ X : String)
    (hn₁ : p₁.name = X) (hn₂ : p₂.name = X) (hexe : p₁.exe ≠ p₂.exe)
    (hX : X ∉ s.names) :
    (new_entry s p₁ ip₁ u₁).names = s.names ++ [X]
    ∧ (new_entry (new_entry s p₁ ip₁ u₁) p₂ ip₂ u₂).names
        = s.names ++ [X, X ++ " (different executable location)"] := by
  subst hn₁
  have hc0 : s.names.count p₁.name = 0 := by
    rw [List.count_eq_zero]
    exact hX
  have step1 : (new_entry s p₁ ip₁ u₁).names = s.names ++ [p₁.name] := by
    rw [new_entry_names]
    simp [List.count_append, hc0]
  refine ⟨step1, ?_⟩
  rw [new_entry_names, step1, hn₂]
  have hc2 : ((s.names ++ [p₁.name]) ++ [p₁.name]).count p₁.name = 2 := by
    simp [List.count_append, hc0]
  rw [hc2]
  simp

/-- Witness for C5: `/usr/bin/curl` and `/opt/curl` both report as `curl` on
a fresh state. -/
theorem c5_name_collision_witness :
    curlProc.name = "curl" ∧ curl2Proc.name = "curl"
    ∧ curlProc.exe ≠ curl2Proc.exe ∧ "curl" ∉ defaultSnitch.names
    ∧ ((new_entry defaultSnitch curlProc "93.184.216.34" t1).names
          = defaultSnitch.names ++ ["curl"]
       ∧ (new_entry (new_entry defaultSnitch curlProc "93.184.216.34" t1)
            curl2Proc "8.8.8.8" t2).names
          = defaultSnitch.names ++ ["curl", "curl (different executable location)"]) :=
  ⟨rfl, rfl, by decide, by decide,
   c5_name_collision defaultSnitch curlProc curl2Proc "93.184.216.34" "8.8.8.8" t1 t2
     "curl" rfl rfl (by decide) (by decide)⟩

/-- Claim C10 (implicit): when a name collision makes the appended `Names`
slot carry the " (different executable location)" suffix at creation time,
the created entry's own `name` field still stores the original, unsuffixed
process name — the suffix appears only in `Names`. -/
theorem c10_entry_name_unsuffixed (s : SnitchState) (p : Proc) (ip t : String)
    (h : p.name ∈ s.names) :
    (new_entry s p ip t).names.getLast?
        = some (p.name ++ " (different executable location)")
    ∧ (new_entry s p ip t).processes.lookup p.exe
        = some { name := p.name, cmdlines := [p.cmdline], firstSeen := t,
                 lastSeen := t, daysSeen := 1, remoteAddresses := [ip] } := by
  constructor
  · rw [new_entry_names]
    have hpos : 0 < s.names.count p.name := List.count_pos_iff.mpr h
    have hgt : 1 < (s.names ++ [p.name]).count p.name := by
      rw [List.count_append]
      have hsing : ([p.name] : List String).count p.name = 1 := by simp
      omega
    rw [if_pos hgt]
    simp
  · rw [new_entry_processes]
    exact lookup_dictInsert _ _ _

/-- Witness for C10: creating `/opt/curl` while `curl` is already in `Names`. -/
theorem c10_entry_name_unsuffixed_witness :
    curl2Proc.name ∈ sW.names
    ∧ ((new_entry sW curl2Proc "8.8.8.8" t2).names.getLast?
          = some (curl2Proc.name ++ " (different executable location)")
       ∧ (new_entry sW curl2Proc "8.8.8.8" t2).processes.lookup curl2Proc.exe
          = some { name := curl2Proc.name, cmdlines := [curl2Proc.cmdline],
                   firstSeen := t2, lastSeen := t2, daysSeen := 1,
                   remoteAddresses := ["8.8.8.8"] }) :=
  ⟨by decide, c10_entry_name_unsuffixed sW curl2Proc "8.8.8.8" t2 (by decide)⟩

/-! ### Helper lemmas: the `daysSeen ≥ 1` invariant -/

theorem update_entry_e_daysSeen (e : Entry) (p : Proc) (ip t : String) :
    (update_entry_e e p ip t).daysSeen =
      if dateOf t = dateOf e.lastSeen then e.daysSeen else e.daysSeen + 1 := rfl

theorem daysGE1_new (s : SnitchState) (p : Proc) (ip t : String)
    (h : ∀ q ∈ s.processes, 1 ≤ (Prod.snd q).daysSeen) :
    ∀ q ∈ (new_entry s p ip t).processes, 1 ≤ (Prod.snd q).daysSeen := by
  intro q hq
  rw [new_entry_processes] at hq
  rcases mem_dictInsert _ _ _ q hq with hh | hh
  · rw [hh]
  · exact h q hh

theorem daysGE1_update (s : SnitchState) (p : Proc) (ip t : String)
    (h : ∀ q ∈ s.processes, 1 ≤ (Prod.snd q).daysSeen) :
    ∀ q ∈ (update_entry s p ip t).processes, 1 ≤ (Prod.snd q).daysSeen := by
  unfold update_entry
  cases he : s.processes.lookup p.exe with
  | none => exact h
  | some e =>
      intro q hq
      simp only at hq
      rcases mem_dictInsert _ _ _ q hq with hh | hh
      · have hmem := lookup_mem s.processes p.exe e he
        have h1 : 1 ≤ e.daysSeen := h (p.exe, e) hmem
        rw [hh]
        show 1 ≤ (update_entry_e e p ip t).daysSeen
        rw [update_entry_e_daysSeen]
        split <;> omega
      · exact h q hh

theorem daysGE1_step (i : String → Bool) (r : PyPid → Option Proc) (t : String)
    (st : PollState) (c : Conn)
    (h : ∀ q ∈ st.snitch.processes, 1 ≤ (Prod.snd q).daysSeen) :
    ∀ q ∈ (processConn i r t st c).snitch.processes, 1 ≤ (Prod.snd q).daysSeen := by
  cases hra : c.raddr with
  | none => rw [processConn_noraddr i r t st c hra]; exact h
  | some a =>
      cases hpriv : i a.ip with
      | true => rw [processConn_private i r t st c a hra hpriv]; exact h
      | false =>
          cases hres : r c.pid with
          | none => rw [processConn_fail i r t st c a hra hpriv hres]; exact h
          | some p =>
              cases hlk : st.snitch.processes.lookup p.exe with
              | none =>
                  rw [processConn_new i r t st c a p hra hpriv hres hlk]
                  exact daysGE1_new st.snitch p a.ip t h
              | some e =>
                  rw [processConn_update i r t st c a p e hra hpriv hres hlk]
                  exact daysGE1_update st.snitch p a.ip t h

theorem daysGE1_fold (i : String → Bool) (r : PyPid → Option Proc) (t : String)
    (l : List Conn) (st : PollState)
    (h : ∀ q ∈ st.snitch.processes, 1 ≤ (Prod.snd q).daysSeen) :
    ∀ q ∈ (l.foldl (processConn i r t) st).snitch.processes, 1 ≤ (Prod.snd q).daysSeen := by
  induction l generalizing st with
  | nil => exact h
  | cons c cs ih => exact ih (processConn i r t st c) (daysGE1_step i r t st c h)

theorem daysGE1_poll (i : String → Bool) (r : PyPid → Option Proc) (t : String)
    (s : SnitchState) (last cur : List Conn) (pd : PcapDict)
    (h : ∀ q ∈ s.processes, 1 ≤ (Prod.snd q).daysSeen) :
    ∀ q ∈ (poll i r t s last cur pd).1.processes, 1 ≤ (Prod.snd q).daysSeen := by
  exact daysGE1_fold i r t _ { snitch := s, pcap := pd, proc := initProc } h

theorem daysGE1_runTicks (i : String → Bool) (r : PyPid → Option Proc)
    (ticks : List TickInput) (init : SnitchState × List Conn)
    (h : ∀ q ∈ init.1.processes, 1 ≤ (Prod.snd q).daysSeen) :
    ∀ q ∈ (runTicks i r ticks init).1.processes, 1 ≤ (Prod.snd q).daysSeen := by
  induction ticks generalizing init with
  | nil => exact h
  | cons tk tks ih =>
      exact ih (poll i r tk.ctime init.1 init.2 tk.current tk.pcap)
        (daysGE1_poll i r tk.ctime init.1 init.2 tk.current tk.pcap h)

/-- Claim C2: every entry of a state reachable from the fresh default state by
any sequence of poll ticks has `daysSeen ≥ 1`; and an update of an existing
entry increments `daysSeen` by exactly 1 when the calendar-date portion of the
new timestamp differs from that of the stored `lastSeen` and leaves it
unchanged otherwise — in particular it never decreases. -/
theorem c2_days_seen (isPrivate : String → Bool) (resolve : PyPid → Option Proc)
    (ticks : List TickInput) (x : String) (e : Entry)
    (hmem : (x, e) ∈ (runTicks isPrivate resolve ticks (defaultSnitch, [])).1.processes)
    (e' : Entry) (p : Proc) (ip t : String) :
    1 ≤ e.daysSeen
    ∧ (update_entry_e e' p ip t).daysSeen
        = (if dateOf t ≠ dateOf e'.lastSeen then e'.daysSeen + 1 else e'.daysSeen)
    ∧ e'.daysSeen ≤ (update_entry_e e' p ip t).daysSeen := by
  refine ⟨?_, ?_, ?_⟩
  · have base : ∀ q ∈ (defaultSnitch, ([] : List Conn)).1.processes,
        1 ≤ (Prod.snd q).daysSeen := by
      intro q hq
      simp [defaultSnitch] at hq
    exact daysGE1_runTicks isPrivate resolve ticks (defaultSnitch, []) base (x, e) hmem
  · rw [update_entry_e_daysSeen]
    by_cases h : dateOf t = dateOf e'.lastSeen <;> simp [h]
  · rw [update_entry_e_daysSeen]
    split <;> omega

/-- Witness for C2: the entry created by one concrete tick, and the update of
`entry1` on a different date. -/
theorem c2_days_seen_witness :
    ("/usr/bin/curl", entry1)
        ∈ (runTicks privW resolveW [{ ctime := t1, current := [conn1], pcap := [] }]
            (defaultSnitch, [])).1.processes
    ∧ (1 ≤ entry1.daysSeen
       ∧ (update_entry_e entry1 curlProc "8.8.8.8" t2).daysSeen
           = (if dateOf t2 ≠ dateOf entry1.lastSeen then entry1.daysSeen + 1
              else entry1.daysSeen)
       ∧ entry1.daysSeen ≤ (update_entry_e entry1 curlProc "8.8.8.8" t2).daysSeen) :=
  ⟨by decide,
   c2_days_seen privW resolveW [{ ctime := t1, current := [conn1], pcap := [] }]
     "/usr/bin/curl" entry1 (by decide) entry1 curlProc "8.8.8.8" t2⟩

/-! ### Helper lemmas: which keys `Processes` acquires -/

theorem keys_step (i : String → Bool) (r : PyPid → Option Proc) (t : String)
    (st : PollState) (c : Conn) (x : String) :
    x ∈ ((processConn i r t st c).snitch.processes.map Prod.fst)
      ↔ x ∈ st.snitch.processes.map Prod.fst ∨ attrOf i r c = some x := by
  cases hra : c.raddr with
  | none => rw [processConn_noraddr i r t st c hra]; simp [attrOf, hra]
  | some a =>
      cases hpriv : i a.ip with
      | true => rw [processConn_private i r t st c a hra hpriv]; simp [attrOf, hra, hpriv]
      | false =>
          cases hres : r c.pid with
          | none => rw [processConn_fail i r t st c a hra hpriv hres]; simp [attrOf, hra, hpriv, hres]
          | some p =>
              cases hlk : st.snitch.processes.lookup p.exe with
              | none =>
                  rw [processConn_new i r t st c a p hra hpriv hres hlk]
                  show x ∈ (new_entry st.snitch p a.ip t).processes.map Prod.fst ↔ _
                  rw [new_entry_processes, mem_keys_dictInsert]
                  simp only [attrOf, hra, hpriv, hres, Bool.false_eq_true, if_false,
                    Option.map_some', Option.some.injEq]
                  constructor
                  · rintro (h | h)
                    · exact Or.inr h.symm
                    · exact Or.inl h
                  · rintro (h | h)
                    · exact Or.inr h
                    · exact Or.inl h.symm
              | some e =>
                  rw [processConn_update i r t st c a p e hra hpriv hres hlk]
                  show x ∈ (update_entry st.snitch p a.ip t).processes.map Prod.fst ↔ _
                  rw [update_entry_eq st.snitch p a.ip t e hlk]
                  show x ∈ (dictInsert st.snitch.processes p.exe _).map Prod.fst ↔ _
                  rw [mem_keys_dictInsert]
                  have hkey : p.exe ∈ st.snitch.processes.map Prod.fst := by
                    have := lookup_mem st.snitch.processes p.exe e hlk
                    exact List.mem_map.mpr ⟨(p.exe, e), this, rfl⟩
                  simp only [attrOf, hra, hpriv, hres, Bool.false_eq_true, if_false,
                    Option.map_some', Option.some.injEq]
                  constructor
                  · rintro (h | h)
                    · exact Or.inl (h ▸ hkey)
                    · exact Or.inl h
                  · rintro (h | h)
                    · exact Or.inr h
                    · exact Or.inl h.symm

theorem keys_fold (i : String → Bool) (r : PyPid → Option Proc) (t : String)
    (l : List Conn) (st : PollState) (x : String) :
    x ∈ ((l.foldl (processConn i r t) st).snitch.processes.map Prod.fst)
      ↔ x ∈ st.snitch.processes.map Prod.fst ∨ x ∈ l.filterMap (attrOf i r) := by
  induction l generalizing st with
  | nil => simp
  | cons c cs ih =>
      rw [List.foldl_cons, ih, keys_step, List.filterMap_cons]
      cases hc : attrOf i r c with
      | none => simp [hc]
      | some y =>
          simp only [hc, Option.some.injEq, List.mem_cons]
          constructor
          · rintro ((h | h) | h)
            · exact Or.inl h
            · exact Or.inr (Or.inl h.symm)
            · exact Or.inr (Or.inr h)
          · rintro (h | h | h)
            · exact Or.inl (Or.inl h)
            · exact Or.inl (Or.inr h.symm)
            · exact Or.inr h

theorem keys_poll (i : String → Bool) (r : PyPid → Option Proc) (t : String)
    (s : SnitchState) (last cur : List Conn) (pd : PcapDict) (x : String) :
    x ∈ (poll i r t s last cur pd).1.processes.map Prod.fst
      ↔ x ∈ s.processes.map Prod.fst
        ∨ x ∈ (cur.filter (fun c => !(last.contains c))).filterMap (attrOf i r) :=
  keys_fold i r t _ { snitch := s, pcap := pd, proc := initProc } x

theorem keys_runTicks (i : String → Bool) (r : PyPid → Option Proc)
    (ticks : List TickInput) (init : SnitchState × List Conn) (x : String) :
    x ∈ (runTicks i r ticks init).1.processes.map Prod.fst
      ↔ x ∈ init.1.processes.map Prod.fst ∨ x ∈ attributedExes i r ticks init.2 := by
  induction ticks generalizing init with
  | nil => simp [runTicks, attributedExes]
  | cons tk tks ih =>
      rw [show runTicks i r (tk :: tks) init
          = runTicks i r tks (poll i r tk.ctime init.1 init.2 tk.current tk.pcap) from rfl]
      rw [ih, keys_poll]
      rw [show (poll i r tk.ctime init.1 init.2 tk.current tk.pcap).2 = tk.current from rfl]
      simp only [attributedExes, List.mem_append]
      tauto

/-- Claim C9: starting from the fresh default state, after any sequence of
poll ticks an executable path is a key of `Processes` iff some processed
(new-in-its-tick) connection with a public remote address was resolved to
that path; and a connection with no remote address, or whose remote address
is private, never creates or updates any Process Entry. -/
theorem c9_entry_existence (isPrivate : String → Bool) (resolve : PyPid → Option Proc)
    (ticks : List TickInput) (x : String) (t : String) (st : PollState) (c : Conn)
    (hc : c.raddr = none ∨ ∃ a, c.raddr = some a ∧ isPrivate a.ip = true) :
    (x ∈ (runTicks isPrivate resolve ticks (defaultSnitch, [])).1.processes.map Prod.fst
       ↔ x ∈ attributedExes isPrivate resolve ticks [])
    ∧ (processConn isPrivate resolve t st c).snitch.processes = st.snitch.processes := by
  constructor
  · rw [keys_runTicks]
    simp [defaultSnitch]
  · rcases hc with h | ⟨a, hra, hpriv⟩
    · rw [processConn_noraddr isPrivate resolve t st c h]
    · rw [processConn_private isPrivate resolve t st c a hra hpriv]

/-- Witness for C9 at a concrete run and a remote-less connection. -/
theorem c9_entry_existence_witness :
    (connNoR.raddr = none ∨ ∃ a, connNoR.raddr = some a ∧ privW a.ip = true)
    ∧ (("/usr/bin/curl"
          ∈ (runTicks privW resolveW [{ ctime := t1, current := [conn1], pcap := [] }]
              (defaultSnitch, [])).1.processes.map Prod.fst
        ↔ "/usr/bin/curl"
          ∈ attributedExes privW resolveW [{ ctime := t1, current := [conn1], pcap := [] }] [])
       ∧ (processConn privW resolveW t1
            { snitch := defaultSnitch, pcap := [], proc := initProc } connNoR).snitch.processes
          = defaultSnitch.processes) :=
  ⟨Or.inl rfl,
   c9_entry_existence privW resolveW [{ ctime := t1, current := [conn1], pcap := [] }]
     "/usr/bin/curl" t1 { snitch := defaultSnitch, pcap := [], proc := initProc } connNoR
     (Or.inl rfl)⟩

/-! ### Helper lemmas: the candidate map across one tick -/

theorem dictPop_as_filter (d : PcapDict) (k : Nat) :
    dictPop d k = d.filter (fun p => !decide (k = p.1)) := by
  unfold dictPop
  apply List.filter_congr
  intro p hp
  simp [ne_comm, eq_comm]

theorem pcap_step (i : String → Bool) (r : PyPid → Option Proc) (t : String)
    (st : PollState) (c : Conn) :
    (processConn i r t st c).pcap = st.pcap.filter (fun p => !popsPort i c p.1) := by
  cases hra : c.raddr with
  | none =>
      rw [processConn_noraddr i r t st c hra]
      simp [popsPort, hra]
  | some a =>
      cases hpriv : i a.ip with
      | true =>
          rw [processConn_private i r t st c a hra hpriv]
          simp [popsPort, hra, hpriv]
      | false =>
          cases hres : r c.pid with
          | none =>
              rw [processConn_fail i r t st c a hra hpriv hres]
              show dictPop st.pcap c.laddr.port = _
              rw [dictPop_as_filter]
              apply List.filter_congr
              intro p hp
              simp [popsPort, hra, hpriv]
          | some p =>
              cases hlk : st.snitch.processes.lookup p.exe with
              | none =>
                  rw [processConn_new i r t st c a p hra hpriv hres hlk]
                  show dictPop st.pcap c.laddr.port = _
                  rw [dictPop_as_filter]
                  apply List.filter_congr
                  intro q hq
                  simp [popsPort, hra, hpriv]
              | some e =>
                  rw [processConn_update i r t st c a p e hra hpriv hres hlk]
                  show dictPop st.pcap c.laddr.port = _
                  rw [dictPop_as_filter]
                  apply List.filter_congr
                  intro q hq
                  simp [popsPort, hra, hpriv]

theorem pcap_fold (i : String → Bool) (r : PyPid → Option Proc) (t : String)
    (l : List Conn) (st : PollState) :
    (l.foldl (processConn i r t) st).pcap
      = st.pcap.filter (fun p => l.all (fun c => !popsPort i c p.1)) := by
  induction l generalizing st with
  | nil => simp
  | cons c cs ih =>
      rw [List.foldl_cons, ih, pcap_step, List.filter_filter]
      apply List.filter_congr
      intro p hp
      simp [Bool.and_comm]

/-- Claim C6: during one tick, for the capture candidates whose local port is
matched by no new public-remote connection processed by `poll` — the
candidates remaining after the per-connection pops — exactly one
missed-connection diagnostic each is appended to `Errors`, in order, and
those remaining candidates have pairwise distinct ports (given the candidate
map had distinct keys); moreover the candidate map a tick starts with is
rebuilt without reading the previous tick's map, so a candidate already
reported is never reported again on a later tick. -/
theorem c6_missed_connection (isPrivate : String → Bool) (resolve : PyPid → Option Proc)
    (ctime : String) (snitch : SnitchState) (last current : List Conn)
    (pcapDict prev : PcapDict) (queue : List Packet) (known : List Nat)
    (h : (pcapDict.map Prod.fst).Nodup) :
    (poll isPrivate resolve ctime snitch last current pcapDict).1.errors
      = ((current.filter (fun c => !(last.contains c))).foldl
           (processConn isPrivate resolve ctime)
           { snitch := snitch, pcap := pcapDict, proc := initProc }).snitch.errors
        ++ (pcapDict.filter
             (fun p => (current.filter (fun c => !(last.contains c))).all
                (fun c => !popsPort isPrivate c p.1))).map
             (fun p => ctime ++ " " ++ toString p.1)
    ∧ ((pcapDict.filter
         (fun p => (current.filter (fun c => !(last.contains c))).all
            (fun c => !popsPort isPrivate c p.1))).map Prod.fst).Nodup
    ∧ drainQueue prev queue known = drainQueue [] queue known := by
  refine ⟨?_, ?_, rfl⟩
  · show ((current.filter (fun c => !(last.contains c))).foldl
        (processConn isPrivate resolve ctime)
        { snitch := snitch, pcap := pcapDict, proc := initProc }).snitch.errors
      ++ ((current.filter (fun c => !(last.contains c))).foldl
           (processConn isPrivate resolve ctime)
           { snitch := snitch, pcap := pcapDict, proc := initProc }).pcap.map
          (fun p => ctime ++ " " ++ toString p.1) = _
    rw [pcap_fold]
  · exact List.Nodup.sublist ((List.filter_sublist pcapDict).map Prod.fst) h

/-- Witness for C6: one candidate on port 40050, one new connection that does
not match it. -/
theorem c6_missed_connection_witness :
    (([(40050, pkt1)].map (Prod.fst (α := Nat) (β := Packet))).Nodup)
    ∧ ((poll privW resolveW t1 defaultSnitch [] [conn1] [(40050, pkt1)]).1.errors
        = (([conn1].filter (fun c => !(([] : List Conn).contains c))).foldl
             (processConn privW resolveW t1)
             { snitch := defaultSnitch, pcap := [(40050, pkt1)], proc := initProc }).snitch.errors
          ++ ([(40050, pkt1)].filter
               (fun p => (([conn1].filter (fun c => !(([] : List Conn).contains c))).all
                  (fun c => !popsPort privW c p.1)))).map
               (fun p => t1 ++ " " ++ toString p.1)
       ∧ (([(40050, pkt1)].filter
            (fun p => (([conn1].filter (fun c => !(([] : List Conn).contains c))).all
               (fun c => !popsPort privW c p.1)))).map Prod.fst).Nodup
       ∧ drainQueue [(40050, pkt1)] [] [] = drainQueue [] [] []) :=
  ⟨by decide,
   c6_missed_connection privW resolveW t1 defaultSnitch [] [conn1] [(40050, pkt1)]
     [(40050, pkt1)] [] [] (by decide)⟩

/-- Claim C8: if resolving the owning process of one new connection fails,
`poll` appends one timestamped diagnostic containing that connection's
description, the failing connection touches neither `Processes` nor anything
beyond that diagnostic and its candidate-map pop, every other new connection
of the tick is still processed normally (the fold simply continues from the
post-failure state), and `poll` still returns the current snapshot. -/
theorem c8_failure_isolation (isPrivate : String → Bool) (resolve : PyPid → Option Proc)
    (ctime : String) (snitch : SnitchState) (last current : List Conn) (pcap : PcapDict)
    (l₁ l₂ : List Conn) (c : Conn) (a : Addr)
    (hsplit : current.filter (fun x => !(last.contains x)) = l₁ ++ c :: l₂)
    (hra : c.raddr = some a) (hpub : isPrivate a.ip = false)
    (hres : resolve c.pid = none) :
    (let st₁ := l₁.foldl (processConn isPrivate resolve ctime)
        { snitch := snitch, pcap := pcap, proc := initProc };
     let diag := ctime ++ " " ++ (connStr c ++
        (if c.pid = st₁.proc.pid then pyStrPid st₁.proc.pid
         else "\x7bprocess no longer exists\x7d"));
     let st₂ : PollState :=
       { snitch := { st₁.snitch with errors := st₁.snitch.errors ++ [diag] }
         pcap := dictPop st₁.pcap c.laddr.port
         proc := st₁.proc };
     let stF := l₂.foldl (processConn isPrivate resolve ctime) st₂;
     (poll isPrivate resolve ctime snitch last current pcap).2 = current
     ∧ pyIn (connStr c) diag = true
     ∧ st₂.snitch.processes = st₁.snitch.processes
     ∧ processConn isPrivate resolve ctime st₁ c = st₂
     ∧ (poll isPrivate resolve ctime snitch last current pcap).1
         = { stF.snitch with errors := (stF.snitch.errors
             ++ stF.pcap.map (fun p => ctime ++ " " ++ toString p.1)) }) := by
  refine ⟨rfl, pyIn_sandwich _ _ _, rfl, ?_, ?_⟩
  · exact processConn_fail isPrivate resolve ctime _ c a hra hpub hres
  · have hF : (current.filter (fun x => !(last.contains x))).foldl
        (processConn isPrivate resolve ctime)
        { snitch := snitch, pcap := pcap, proc := initProc }
        = (l₂.foldl (processConn isPrivate resolve ctime)
            (processConn isPrivate resolve ctime
              (l₁.foldl (processConn isPrivate resolve ctime)
                { snitch := snitch, pcap := pcap, proc := initProc }) c)) := by
      rw [hsplit, List.foldl_append, List.foldl_cons]
    simp only [poll]
    rw [hF, processConn_fail isPrivate resolve ctime _ c a hra hpub hres]

/-- Witness for C8: `connFail`'s pid cannot be resolved while `conn1` in the
same tick still creates its entry. -/
theorem c8_failure_isolation_witness :
    [conn1, connFail].filter (fun x => !(([] : List Conn).contains x))
        = [conn1] ++ connFail :: []
    ∧ connFail.raddr = some { ip := "5.6.7.8", port := 443 }
    ∧ privW "5.6.7.8" = false
    ∧ resolveW connFail.pid = none
    ∧ (let st₁ := [conn1].foldl (processConn privW resolveW t1)
          { snitch := defaultSnitch, pcap := [], proc := initProc };
       let diag := t1 ++ " " ++ (connStr connFail ++
          (if connFail.pid = st₁.proc.pid then pyStrPid st₁.proc.pid
           else "\x7bprocess no longer exists\x7d"));
       let st₂ : PollState :=
         { snitch := { st₁.snitch with errors := st₁.snitch.errors ++ [diag] }
           pcap := dictPop st₁.pcap connFail.laddr.port
           proc := st₁.proc };
       let stF := ([] : List Conn).foldl (processConn privW resolveW t1) st₂;
       (poll privW resolveW t1 defaultSnitch [] [conn1, connFail] []).2 = [conn1, connFail]
       ∧ pyIn (connStr connFail) diag = true
       ∧ st₂.snitch.processes = st₁.snitch.processes
       ∧ processConn privW resolveW t1 st₁ connFail = st₂
       ∧ (poll privW resolveW t1 defaultSnitch [] [conn1, connFail] []).1
           = { stF.snitch with errors := (stF.snitch.errors
               ++ stF.pcap.map (fun p => t1 ++ " " ++ toString p.1)) }) :=
  ⟨by decide, rfl, by decide, rfl,
   c8_failure_isolation privW resolveW t1 defaultSnitch [] [conn1, connFail] []
     [conn1] [] connFail { ip := "5.6.7.8", port := 443 } (by decide) rfl (by decide) rfl⟩

/-- Claim C7: the claim states the tick-start drain empties the queue into a
fresh candidate map keyed by local port.  The source's drain loop (line 141)
evaluates `q.get()`, but the only queue binding in `loop`'s scope is named
`queue`, so the first drained packet raises `NameError` and no candidate map
is ever built from a non-empty queue; the drain succeeds only vacuously on an
empty queue.  The spec-modelled intended drain does behave as claimed. -/
theorem c7_drain_nameerror :
    drainQueue [] [pkt1] [] = Except.error "NameError: name q is not defined"
    ∧ drainQueue [(40050, pkt1)] [pkt1] [40050]
        = Except.error "NameError: name q is not defined"
    ∧ drainQueue [(40050, pkt1)] [] [] = Except.ok []
    ∧ drainQueueSpec [pkt1] [] = [(40050, pkt1)]
    ∧ drainQueueSpec [pkt1] [40050] = [] :=
  ⟨rfl, rfl, rfl, rfl, rfl⟩

/-! ### Helper lemmas: serialization round trip -/

theorem decodeStrs_map (l : List String) :
    decodeStrs (l.map Json.jstr) = some l := by
  induction l with
  | nil => rfl
  | cons s ss ih => simp [decodeStrs, ih]

theorem decodeStrList_map (l : List String) :
    decodeStrList (Json.jarr (l.map Json.jstr)) = some l := by
  simp [decodeStrList, decodeStrs_map]

theorem decodeConfig_encode (c : Config) :
    decodeConfig (encodeConfig c) = some c := rfl

theorem decodeEntry_encode (e : Entry) :
    decodeEntry (encodeEntry e) = some e := by
  have h : decodeEntry (encodeEntry e)
      = (decodeStrList (Json.jarr (e.cmdlines.map Json.jstr))).bind (fun cl =>
          (decodeStrList (Json.jarr (e.remoteAddresses.map Json.jstr))).bind (fun rl =>
            some { name := e.name, cmdlines := cl, firstSeen := e.firstSeen,
                   lastSeen := e.lastSeen, daysSeen := e.daysSeen,
                   remoteAddresses := rl })) := rfl
  rw [h, decodeStrList_map, decodeStrList_map]
  rfl

theorem decodeProcDict_map (l : Dict String Entry) :
    decodeProcDict (l.map (fun p => (p.1, encodeEntry p.2))) = some l := by
  induction l with
  | nil => rfl
  | cons p ps ih => simp [decodeProcDict, decodeEntry_encode, ih]

theorem read_write (s : SnitchState) :
    read (write s) = some { s with processes := sortByKey s.processes } := by
  simp [write, read, decodeConfig_encode, decodeStrList_map, decodeProcDict_map]

theorem insertByKey_perm {α : Type} (p : String × α) (l : Dict String α) :
    (insertByKey p l).Perm (p :: l) := by
  induction l with
  | nil => exact List.Perm.refl _
  | cons q qs ih =>
      unfold insertByKey
      by_cases h : p.1 ≤ q.1
      · rw [if_pos h]
      · rw [if_neg h]
        exact (ih.cons q).trans (List.Perm.swap p q qs)

theorem sortByKey_perm {α : Type} (d : Dict String α) : (sortByKey d).Perm d := by
  induction d with
  | nil => exact List.Perm.refl _
  | cons p ps ih =>
      unfold sortByKey
      exact (insertByKey_perm p (sortByKey ps)).trans (ih.cons p)

theorem perm_lookup {α : Type} {l₁ l₂ : Dict String α} (hp : l₁.Perm l₂) :
    ((l₂.map Prod.fst).Nodup) → ∀ k : String, l₁.lookup k = l₂.lookup k := by
  induction hp with
  | nil => intro _ k; rfl
  | cons x p ih =>
      rename_i t₁ t₂
      intro hnd k
      have hnd' : (x.1 :: (List.map Prod.fst t₂)).Nodup := by simpa using hnd
      have htail := hnd'.of_cons
      cases hbeq : k == x.1 with
      | true => simp [List.lookup, hbeq]
      | false => simp [List.lookup, hbeq, ih htail k]
  | swap x y l =>
      intro hnd k
      have hnd' : (x.1 :: y.1 :: (l.map Prod.fst)).Nodup := by simpa using hnd
      have hxy : x.1 ≠ y.1 := by
        have h1 := (List.nodup_cons.mp hnd').1
        intro he
        exact h1 (by simp [he])
      cases hbx : k == x.1 with
      | true =>
          have hkx : k = x.1 := by simpa using hbx
          have hby : (k == y.1) = false := beq_eq_false_iff_ne.mpr (hkx ▸ hxy)
          simp [List.lookup, hbx, hby]
      | false =>
          cases hby : k == y.1 with
          | true => simp [List.lookup, hbx, hby]
          | false => simp [List.lookup, hbx, hby]
  | trans p₁ p₂ ih₁ ih₂ =>
      intro hnd k
      have hmid := ((p₂.map Prod.fst).nodup_iff).mpr hnd
      exact (ih₁ hmid k).trans (ih₂ hnd k)

/-- Claim C4: round-trip persistence — serializing a state with unique
executable-path keys to the sorted-key JSON document and parsing it back
yields a state that is Python-`==` to the original: all scalar fields equal
and the `Processes` dicts hold the same key/value items (a permutation at the
item level, agreeing on every lookup). -/
theorem c4_round_trip (s : SnitchState) (k : String)
    (hnd : (s.processes.map Prod.fst).Nodup) :
    ∃ s2, read (write s) = some s2 ∧ pyEqState s2 s
      ∧ s2.processes.lookup k = s.processes.lookup k := by
  refine ⟨{ s with processes := sortByKey s.processes }, read_write s, ?_, ?_⟩
  · exact ⟨rfl, rfl, rfl, rfl, sortByKey_perm s.processes⟩
  · exact perm_lookup (sortByKey_perm s.processes) hnd k

/-- Witness for C4 on a state whose `Processes` keys are out of order. -/
theorem c4_round_trip_witness :
    ((sampleW.processes.map Prod.fst).Nodup)
    ∧ (∃ s2, read (write sampleW) = some s2 ∧ pyEqState s2 sampleW
        ∧ s2.processes.lookup "/opt/curl" = sampleW.processes.lookup "/opt/curl") :=
  ⟨by decide, c4_round_trip sampleW "/opt/curl" (by decide)⟩

end Picosnitch
